import Mathlib

/-
  Shallow embedding of the Raft replica core of the Rusty-Raft repository
  (src/server/mod.rs and src/server/peer.rs), together with theorems that
  settle the claims of the specification against the code.

  Conventions of the embedding:
  - Rust u64 and usize values are modelled as Nat. No arithmetic in the
    modelled code wraps on a realizable input except the one underflow that
    claim C10 is about; there the Rust release build wraps to a huge index
    whose Vec::get returns None and the unwrap panics, and the debug build
    panics on the subtraction itself. Both end in a panic, which the model
    renders as Option.none.
  - Instants and Durations are modelled as Nat (milliseconds); the ambient
    time is passed in as an explicit argument called now, and the random
    election timeout redraw is passed in as an explicit fresh argument.
  - debug_assert! statements are modelled as no-ops, which is their
    semantics in a release build; where one matters it is discussed at the
    theorem concerned.
  - The log module (src/server/log.rs) is absent from the sources; its
    operations are modelled from the spec (section 3), and each such
    definition is marked Modelled from the spec.
  - Channels, threads and the capnp wire format are not modelled; a handler
    is a pure function from the shared state and the decoded message to the
    new shared state and the reply it builds. A handler that returns before
    initializing the reply builder is modelled as returning none for the
    reply.
-/

namespace RustyRaft

/-- A log entry: src/server/log.rs is absent, the shape is taken from the
spec section 3 and from the Entry construction at src/server/mod.rs lines
611-616 (index, term, data). Bytes are modelled as a list of Nat. -/
structure Entry where
  index : Nat
  term : Nat
  data : List Nat
deriving Repr, DecidableEq

/-- The role states of src/server/mod.rs lines 57-62. -/
inductive State where
  | CANDIDATE
  | LEADER
  | FOLLOWER
deriving Repr, DecidableEq

/-- ServerState of src/server/mod.rs lines 207-215. Instants and Durations
are Nat milliseconds. -/
structure ServerState where
  current_state : State
  current_term : Nat
  commit_index : Nat
  last_leader_contact : Nat
  voted_for : Option Nat
  election_timeout : Nat
deriving Repr, DecidableEq

/-- transition_to_candidate, src/server/mod.rs lines 228-239: reads
(last_log_term, last_log_index) from (current_term, commit_index) before
mutating, then increments the term, votes for self and redraws the timeout
(the redraw is the fresh argument). Returns the pair together with the new
state. -/
def ServerState.transition_to_candidate (s : ServerState) (my_id fresh : Nat) :
    (Nat × Nat) × ServerState :=
  ((s.current_term, s.commit_index),
   { s with current_state := State.CANDIDATE,
            current_term := s.current_term + 1,
            voted_for := some my_id,
            election_timeout := fresh })

/-- transition_to_leader, src/server/mod.rs lines 245-249. -/
def ServerState.transition_to_leader (s : ServerState) : ServerState :=
  { s with current_state := State.LEADER }

/-- transition_to_follower, src/server/mod.rs lines 251-258: sets the term
to new_term, becomes FOLLOWER, clears voted_for and redraws the timeout. -/
def ServerState.transition_to_follower (s : ServerState) (new_term fresh : Nat) :
    ServerState :=
  { s with current_term := new_term,
           current_state := State.FOLLOWER,
           voted_for := none,
           election_timeout := fresh }

/-- has_election_timeout_occured, src/server/mod.rs lines 263-267: returns
true when the time since last_leader_contact is LESS than the election
timeout (the comparison direction is as written in the source). -/
def ServerState.has_election_timeout_occured (s : ServerState) (now : Nat) : Bool :=
  now - s.last_leader_contact < s.election_timeout

/-- The in-memory log is an ordered sequence of entries. Modelled from the
spec: src/server/log.rs is absent from the sources; per section 3 the log is
a 1-indexed dense sequence, so the element at list position i has index
i + 1. -/
def Log := List Entry

/-- Modelled from the spec: last_index() is 0 when the log is empty. -/
def Log.last_index (l : Log) : Nat := List.length l

/-- Modelled from the spec: entry_at(i) is the entry at 1-based index i, or
absent. -/
def Log.entry_at (l : Log) (i : Nat) : Option Entry :=
  if i = 0 then none else List.get? l (i - 1)

/-- Term of the last entry, 0 for the empty log (the convention the spec
uses for prev_log_term of an empty prefix). -/
def Log.last_term (l : Log) : Nat :=
  (List.getLast? l).elim 0 Entry.term

/-- Modelled from the spec: other_is_at_least_as_up_to_date, section 3 -
true iff the last term of the other log is greater, or the last terms are
equal and the last index of the other log is at least ours. This is the
is_other_log_valid the RequestVote handler calls at src/server/mod.rs line
558. -/
def Log.is_other_log_valid (l : Log) (other_last_index other_last_term : Nat) : Bool :=
  decide (l.last_term < other_last_term) ||
    (other_last_term == l.last_term && decide (l.last_index ≤ other_last_index))

/-- Modelled from the spec: append(entries) appends a contiguous block at
the end of the log. This is the append_entries the AppendEntries handler
calls at src/server/mod.rs line 620. -/
def Log.append_entries (l : Log) (entries : List Entry) : Log :=
  List.append l entries

/-- PeerHandle of src/server/mod.rs lines 114-118: the channel to the peer
thread is not modelled; the handle keeps the peer id and the per-peer
commit_index cursor. -/
structure PeerHandleM where
  id : Nat
  commit_index : Nat
deriving Repr, DecidableEq

/-- AppendEntriesReply of src/server/mod.rs lines 79-84; the peer field
keeps only the id (the socket address is transport detail). -/
structure AppendEntriesReplyM where
  term : Nat
  commit_index : Nat
  peer_id : Nat
  success : Bool
deriving Repr, DecidableEq

/-- RequestVoteMessage of src/server/mod.rs lines 87-92. -/
structure RequestVoteMessage where
  term : Nat
  candidate_id : Nat
  last_log_index : Nat
  last_log_term : Nat
deriving Repr, DecidableEq

/-- The Server fields that the modelled operations touch, src/server/mod.rs
lines 271-278: the shared ServerState and the peer handles (me is carried
as an argument where needed; log, channels and heartbeat bookkeeping are
modelled at the call sites that use them). -/
structure Server where
  state : ServerState
  peers : List PeerHandleM
deriving Repr, DecidableEq

/-- Ascending insertion into a sorted list; together with sortAsc this
models Vec::sort (ascending) used at src/server/mod.rs line 448. -/
def insertSorted (x : Nat) : List Nat → List Nat
  | [] => [x]
  | y :: ys => if x ≤ y then x :: y :: ys else y :: insertSorted x ys

/-- Ascending sort of a list of Nat, modelling Vec::sort. -/
def sortAsc : List Nat → List Nat
  | [] => []
  | x :: xs => insertSorted x (sortAsc xs)

/-- update_commit_index, src/server/mod.rs lines 444-454: collects the
commit_index of every peer, sorts ascending, reads the element at position
(len - 1) / 2 and unwraps it, then raises the commit index of the server
when the value read is strictly higher. The unwrap panic (reached through
the usize underflow of len - 1 when there are no peers) is modelled as
none. The function consults neither the log nor the own last index of the
leader. -/
def Server.update_commit_index (s : Server) : Option Server :=
  let indices := sortAsc (List.map PeerHandleM.commit_index s.peers)
  match List.get? indices ((List.length indices - 1) / 2) with
  | none => none
  | some new_index =>
    if new_index ≤ s.state.commit_index then some s
    else some { s with state := { s.state with commit_index := new_index } }

/-- The successful AppendEntriesReply branch of the leader loop,
src/server/mod.rs lines 324-332: on success, raise the commit_index cursor
of the replying peer to the reported value when higher, then run
update_commit_index; on failure do nothing. -/
def Server.handle_append_entries_reply (s : Server) (m : AppendEntriesReplyM) :
    Option Server :=
  if m.success then
    let peers := List.map (fun p =>
      if p.id == m.peer_id && m.commit_index > p.commit_index then
        { p with commit_index := m.commit_index }
      else p) s.peers
    Server.update_commit_index { s with peers := peers }
  else some s

/-- RequestVoteHandler::handle_rpc, src/server/mod.rs lines 534-570. The
handler stamps last_leader_contact, steps down on a strictly higher term,
and grants when voted_for is none or already the candidate, the request
term equals the current term, and the candidate log passes
is_other_log_valid; on a grant it records voted_for and then calls
transition_to_follower (which clears voted_for again). The reply carries
the current term read after all mutations. The arguments now, fresh1 and
fresh2 stand for Instant::now and the two possible timeout redraws. -/
def requestVoteHandleRpc (st : ServerState) (log : Log) (args : RequestVoteMessage)
    (now fresh1 fresh2 : Nat) : ServerState × (Nat × Bool) :=
  let st1 := { st with last_leader_contact := now }
  let st2 := if st1.current_term < args.term then
               st1.transition_to_follower args.term fresh1
             else st1
  if st2.voted_for = none ∨ st2.voted_for = some args.candidate_id then
    if args.term == st2.current_term &&
       log.is_other_log_valid args.last_log_index args.last_log_term then
      let st3 := { st2 with voted_for := some args.candidate_id }
      let st4 := st3.transition_to_follower args.term fresh2
      (st4, (st4.current_term, true))
    else (st2, (st2.current_term, false))
  else (st2, (st2.current_term, false))

/-- The decoded arguments of an inbound AppendEntries,
src/server/mod.rs lines 70-77. -/
structure AppendEntriesArgs where
  term : Nat
  leader_id : Nat
  prev_log_index : Nat
  prev_log_term : Nat
  entries : List Entry
  leader_commit : Nat
deriving Repr, DecidableEq

/-- AppendEntriesHandler::handle_rpc, src/server/mod.rs lines 587-633. It
reads (commit_index, current_term), returns without initializing the reply
when the request term differs from the current term (modelled as a none
reply), stamps last_leader_contact, and when prev_log_index equals the
commit index of the receiver it appends all entries to the log, adds the
number of entries to commit_index and replies success; otherwise it replies
failure. The reply term is the term read at entry. -/
def appendEntriesHandleRpc (st : ServerState) (log : Log) (a : AppendEntriesArgs)
    (now : Nat) : ServerState × Log × Option (Nat × Bool) :=
  let commit_index := st.commit_index
  let term := st.current_term
  if a.term ≠ term then (st, log, none)
  else
    let st1 := { st with last_leader_contact := now }
    if a.prev_log_index = commit_index then
      let entries_len := List.length a.entries
      let log1 := log.append_entries a.entries
      let st2 := { st1 with commit_index := st1.commit_index + entries_len }
      (st2, log1, some (term, true))
    else (st1, log, some (term, false))

/-- The state-mutating prologue of Server::start_election,
src/server/mod.rs lines 466-499, run under the state lock. A FOLLOWER whose
has_election_timeout_occured returns true aborts (none). Otherwise the code
becomes CANDIDATE, increments the term, ZEROES commit_index, votes for
itself, then calls transition_to_candidate (incrementing the term a second
time and redrawing the timeout, the fresh argument) and builds the
RequestVoteMessage from the final term and the pair transition_to_candidate
returned. -/
def startElectionEnter (s : ServerState) (my_id now fresh : Nat) :
    Option (ServerState × RequestVoteMessage) :=
  if s.current_state = State.FOLLOWER ∧ s.has_election_timeout_occured now then
    none
  else
    let s1 := { s with current_state := State.CANDIDATE,
                       current_term := s.current_term + 1,
                       commit_index := 0,
                       voted_for := some my_id }
    let r := s1.transition_to_candidate my_id fresh
    some (r.2, { term := r.2.current_term,
                 candidate_id := my_id,
                 last_log_index := r.1.2,
                 last_log_term := r.1.1 })

/-- The messages the main thread can receive, src/server/mod.rs lines
108-112. -/
inductive MainMsg where
  | appendEntriesReply (m : AppendEntriesReplyM)
  | requestVoteReply (term : Nat) (vote_granted : Bool)
  | clientAppendRequest
deriving Repr, DecidableEq

/-- The vote-counting loop of Server::start_election, src/server/mod.rs
lines 502-521: while num_votes <= num_peers / 2, receive a message; a
RequestVoteReply whose term equals the election term and whose vote is
granted adds one vote, every other message is skipped. Exhausting the
message list models the recv_timeout expiry, on which the election is
cancelled (false). When the loop guard fails the candidate transitions to
leader (true). -/
def runElectionLoop (num_peers election_term : Nat) :
    List MainMsg → Nat → Bool
  | msgs, num_votes =>
    if num_peers / 2 < num_votes then true
    else
      match msgs with
      | [] => false
      | MainMsg.requestVoteReply t g :: rest =>
        runElectionLoop num_peers election_term rest
          (if t == election_term && g then num_votes + 1 else num_votes)
      | MainMsg.appendEntriesReply _ :: rest =>
        runElectionLoop num_peers election_term rest num_votes
      | MainMsg.clientAppendRequest :: rest =>
        runElectionLoop num_peers election_term rest num_votes

/-- The tally entry point: the candidate counts itself as one vote,
src/server/mod.rs line 502. Returns true iff the loop ends in the
transition_to_leader call of line 525. -/
def startElectionCount (num_peers election_term : Nat) (msgs : List MainMsg) : Bool :=
  runElectionLoop num_peers election_term msgs 1

/-- The number of replies in the list that the loop counts: RequestVote
replies whose term equals the election term and whose vote is granted. -/
def countValidVotes (election_term : Nat) : List MainMsg → Nat
  | [] => 0
  | MainMsg.requestVoteReply t g :: rest =>
    (if t == election_term && g then 1 else 0) + countValidVotes election_term rest
  | MainMsg.appendEntriesReply _ :: rest => countValidVotes election_term rest
  | MainMsg.clientAppendRequest :: rest => countValidVotes election_term rest

/-- Peer::handle_request_vote_reply, src/server/peer.rs lines 320-331:
a decoded wire reply (reply_term, vote_granted) counts as granted only when
reply_term equals the vote term and the vote was granted. -/
def Peer.handle_request_vote_reply (vote_term : Nat) (msg : Nat × Bool) : Bool :=
  msg.1 == vote_term && msg.2

/-- Peer::send_request_vote, src/server/peer.rs lines 285-299: the wire
reply (none models a transport failure) is folded through
handle_request_vote_reply with unwrap_or(false), and the reply pushed to
the main thread always carries vote.term as its term - the term observed on
the wire is discarded. -/
def Peer.send_request_vote (vote_term : Nat) (wire : Option (Nat × Bool)) :
    Nat × Bool :=
  let vote_granted := (Option.map (Peer.handle_request_vote_reply vote_term) wire).getD false
  (vote_term, vote_granted)

/-- Constants for peer catch-up. Modelled from the spec:
src/common/constants is absent from the sources; section 6 gives
max_catchup_rounds default 10. -/
def MAX_ROUNDS_FOR_NEW_SERVER : Nat := 10

/-- Minimum election timeout in milliseconds, src/server/mod.rs line 24 and
spec section 6. -/
def ELECTION_TIMEOUT_MIN : Nat := 150

/-- PeerState of src/server/peer.rs lines 52-57; the reply pipe of a
non-voting peer is a channel and is not modelled. -/
inductive PeerState where
  | Voting
  | NonVoting (round : Nat) (round_start : Nat)
deriving Repr, DecidableEq

/-- NonVotingPeerState of src/server/peer.rs lines 72-77 (the pipes carried
by CaughtUp and TimedOut are channels and are not modelled). -/
inductive NonVotingPeerState where
  | CatchingUp
  | CaughtUp
  | TimedOut
  | VotingPeer
deriving Repr, DecidableEq

/-- PeerHandle of src/server/peer.rs lines 63-70 (channel and join handle
not modelled). -/
structure PeerHandleP where
  id : Nat
  next_index : Nat
  match_index : Nat
  state : PeerState
deriving Repr, DecidableEq

/-- PeerHandle::advance_non_voting_peer_round, src/server/peer.rs lines
112-147: a no-op for voting peers; for a non-voting peer the round counter
is incremented, then: caught up (next_index equals latest_log_index + 1)
returns CaughtUp; otherwise at round MAX_ROUNDS_FOR_NEW_SERVER the peer is
TimedOut when the last round exceeded ELECTION_TIMEOUT_MIN and CaughtUp
(fast enough to admit) otherwise; below that bound a new round starts with
round_start = now and CatchingUp is returned. A CaughtUp result sets the
peer state to Voting. -/
def PeerHandleP.advance_non_voting_peer_round (p : PeerHandleP)
    (latest_log_index now : Nat) : PeerHandleP × NonVotingPeerState :=
  match p.state with
  | PeerState.Voting => (p, NonVotingPeerState.VotingPeer)
  | PeerState.NonVoting round start_time =>
    let round1 := round + 1
    if p.next_index = latest_log_index + 1 then
      ({ p with state := PeerState.Voting }, NonVotingPeerState.CaughtUp)
    else if round1 = MAX_ROUNDS_FOR_NEW_SERVER then
      if ELECTION_TIMEOUT_MIN < now - start_time then
        ({ p with state := PeerState.NonVoting round1 start_time },
         NonVotingPeerState.TimedOut)
      else
        ({ p with state := PeerState.Voting }, NonVotingPeerState.CaughtUp)
    else
      ({ p with state := PeerState.NonVoting round1 now },
       NonVotingPeerState.CatchingUp)

theorem insertSorted_length (x : Nat) (l : List Nat) :
    (insertSorted x l).length = l.length + 1 := by
  induction l with
  | nil => rfl
  | cons y ys ih =>
    by_cases h : x ≤ y <;> simp [insertSorted, h, ih]

theorem sortAsc_length (l : List Nat) : (sortAsc l).length = l.length := by
  induction l with
  | nil => rfl
  | cons x xs ih => simp [sortAsc, insertSorted_length, ih]

theorem runElectionLoop_true_iff (V T : Nat) (msgs : List MainMsg) (v : Nat) :
    runElectionLoop V T msgs v = true ↔ V / 2 < v + countValidVotes T msgs := by
  induction msgs generalizing v with
  | nil => simp [runElectionLoop, countValidVotes]
  | cons m rest ih =>
    cases m with
    | requestVoteReply t g =>
      by_cases h : V / 2 < v
      · simp only [runElectionLoop, h, if_true, countValidVotes]
        constructor
        · intro _; omega
        · intro _; trivial
      · simp only [runElectionLoop, h, if_false, countValidVotes]
        rw [ih]
        by_cases hg : (t == T && g) = true <;> simp [hg] <;> omega
    | appendEntriesReply mm =>
      by_cases h : V / 2 < v
      · simp only [runElectionLoop, h, if_true, countValidVotes]
        constructor
        · intro _; omega
        · intro _; trivial
      · simp only [runElectionLoop, h, if_false, countValidVotes]
        exact ih v
    | clientAppendRequest =>
      by_cases h : V / 2 < v
      · simp only [runElectionLoop, h, if_true, countValidVotes]
        constructor
        · intro _; omega
        · intro _; trivial
      · simp only [runElectionLoop, h, if_false, countValidVotes]
        exact ih v

/-- C1: the claim states that commit advance takes the median of the
match_index values of the voting peers INCLUDING the leader itself and
moves commit_index to that median M only when the entry at M carries the
current term. The code (src/server/mod.rs lines 444-454) sorts the peer
cursors only, never consults the log, and advances on the bare median: on
a leader at term 2 with one peer whose reported cursor is 2, it sets
commit_index to 2 even though the entry at index 2 carries term 1, which
the claim forbids. -/
theorem commit_advance_ignores_term_check :
    (Option.map (fun s => s.state.commit_index)
      (Server.handle_append_entries_reply
        { state := { current_state := State.LEADER, current_term := 2, commit_index := 0,
                     last_leader_contact := 0, voted_for := none, election_timeout := 150 },
          peers := [{ id := 1, commit_index := 0 }] }
        { term := 2, commit_index := 2, peer_id := 1, success := true })) = some 2 ∧
    Option.map Entry.term (Log.entry_at [⟨1, 1, []⟩, ⟨2, 1, []⟩] 2) = some 1 := by
  exact ⟨rfl, rfl⟩

/-- C2: the claim states that a replica grants at most one vote per term
because a grant leaves voted_for set to the granted candidate. In the code
(src/server/mod.rs lines 556-562) the grant branch records voted_for and
then calls transition_to_follower, which clears voted_for again, so here a
replica that has stepped to term 6 grants candidate 1 AND candidate 2 in
the same term 6. -/
theorem request_vote_grants_twice_in_same_term :
    (requestVoteHandleRpc ⟨State.CANDIDATE, 5, 0, 0, some 0, 150⟩ []
        ⟨6, 1, 0, 0⟩ 10 151 152).2 = (6, true) ∧
    (requestVoteHandleRpc
        (requestVoteHandleRpc ⟨State.CANDIDATE, 5, 0, 0, some 0, 150⟩ []
          ⟨6, 1, 0, 0⟩ 10 151 152).1 []
        ⟨6, 2, 0, 0⟩ 20 153 154).2 = (6, true) := by
  exact ⟨rfl, rfl⟩

/-- C3: the claim states that commit_index never decreases, in particular
not when becoming a candidate. The election prologue (src/server/mod.rs
line 479) assigns commit_index = 0: a candidate entering an election with
commit_index 3 leaves the prologue with commit_index 0. -/
theorem start_election_lowers_commit_index :
    (Option.map (fun p => p.1.commit_index)
      (startElectionEnter ⟨State.CANDIDATE, 7, 3, 0, some 0, 150⟩ 0 200 151)) = some 0 := by
  exact rfl

/-- C4: the claim states that the AppendEntries handler succeeds exactly
when the log holds an entry at prev_log_index with term prev_log_term. The
code (src/server/mod.rs line 609) instead compares prev_log_index with the
commit index of the receiver: here the log holds the matching entry
(index 1, term 1) demanded by prev_log_index 1 and prev_log_term 1, yet the
reply is a failure because the receiver commit index is 0. -/
theorem append_entries_success_despite_log_match_failure :
    (appendEntriesHandleRpc ⟨State.FOLLOWER, 1, 0, 0, none, 150⟩ [⟨1, 1, []⟩]
        ⟨1, 0, 1, 1, [], 0⟩ 5).2.2 = some (1, false) ∧
    Log.entry_at [⟨1, 1, []⟩] 1 = some ⟨1, 1, []⟩ := by
  exact ⟨rfl, rfl⟩

/-- C5: the claim states that on success the follower sets
commit_index = min(leader_commit, last_index) and only when
leader_commit > commit_index. The code (src/server/mod.rs line 623) adds
the number of appended entries instead: with leader_commit 0 and
commit_index 0 the claim demands commit_index stay 0, yet the handler
leaves it at 2 after appending two entries. -/
theorem append_entries_commit_ignores_leader_commit :
    (appendEntriesHandleRpc ⟨State.FOLLOWER, 1, 0, 0, none, 150⟩ []
        ⟨1, 0, 0, 0, [⟨1, 1, []⟩, ⟨2, 1, []⟩], 0⟩ 5).1.commit_index = 2 := by
  exact rfl

/-- C6: the candidate, counting itself as one vote, becomes leader exactly
when its tally over the received replies reaches the strict majority
threshold of the voting cohort including itself, ceil of (V + 1) / 2,
where only replies carrying the election term with vote_granted true are
counted. -/
theorem election_wins_iff_majority (V T : Nat) (msgs : List MainMsg) :
    startElectionCount V T msgs = true ↔
      (V + 1 + 1) / 2 ≤ 1 + countValidVotes T msgs := by
  rw [startElectionCount, runElectionLoop_true_iff]
  omega

/-- C7: the claim states that a RequestVote reply carrying a term above the
election term makes the candidate step down to follower and abandon the
election. The peer thread (src/server/peer.rs lines 285-299) rewrites every
reply to carry vote.term, turning the observed term 5 into the harmless
pair (3, false); the counting loop of start_election has no step-down arm
at all, and with one further granted vote the candidate still wins the
election it should have abandoned. -/
theorem higher_term_reply_does_not_step_down :
    Peer.send_request_vote 3 (some (5, true)) = (3, false) ∧
    startElectionCount 2 3
      [MainMsg.requestVoteReply (Peer.send_request_vote 3 (some (5, true))).1
         (Peer.send_request_vote 3 (some (5, true))).2,
       MainMsg.requestVoteReply 3 true] = true := by
  exact ⟨rfl, rfl⟩

/-- C8: the claim states that an AppendEntries with a stale term is
answered with the reply pair (current_term, false). The code
(src/server/mod.rs lines 603-605) returns from the handler without
initializing the reply builder whenever the request term differs from the
current term, so a request at term 1 against a receiver at term 2 produces
no reply at all (modelled as none) instead of (2, false). -/
theorem stale_term_append_entries_gets_no_reply :
    (appendEntriesHandleRpc ⟨State.FOLLOWER, 2, 0, 0, none, 150⟩ []
        ⟨1, 0, 0, 0, [], 0⟩ 5).2.2 = none := by
  exact rfl

/-- C9 counterexample: the claim states that a non-voting peer is promoted
to Voting only when its next_index equals the latest log index plus one.
In the code (src/server/peer.rs lines 123-133) a peer whose stored round is
9 reaches MAX_ROUNDS_FOR_NEW_SERVER = 10 on this call, and because its last
round took 100 ms, at most one election timeout, it is promoted (CaughtUp,
state Voting) although next_index is 3 and the latest log index is 10. -/
theorem non_voting_peer_promoted_without_catching_up :
    ((PeerHandleP.mk 1 3 0 (PeerState.NonVoting 9 0)).advance_non_voting_peer_round 10 100).2
      = NonVotingPeerState.CaughtUp ∧
    ((PeerHandleP.mk 1 3 0 (PeerState.NonVoting 9 0)).advance_non_voting_peer_round 10 100).1.state
      = PeerState.Voting ∧
    (PeerHandleP.mk 1 3 0 (PeerState.NonVoting 9 0)).next_index ≠ 10 + 1 := by
  exact ⟨rfl, rfl, by decide⟩

/-- C9 amended: for a non-voting peer holding round r and round start st,
one call of advance_non_voting_peer_round yields CaughtUp (and a Voting
state) iff the peer is caught up (next_index = latest + 1) OR the
incremented round reaches MAX_ROUNDS_FOR_NEW_SERVER with the last round
within one election timeout; it yields TimedOut iff not caught up at
MAX_ROUNDS_FOR_NEW_SERVER with the last round over one election timeout;
and otherwise it yields CatchingUp, storing the incremented round with
round_start = now. -/
theorem advance_non_voting_round_cases (i ni mi r st latest now : Nat) :
    (((PeerHandleP.mk i ni mi (PeerState.NonVoting r st)).advance_non_voting_peer_round latest now).2
        = NonVotingPeerState.CaughtUp ↔
      (ni = latest + 1 ∨ (r + 1 = MAX_ROUNDS_FOR_NEW_SERVER ∧ now - st ≤ ELECTION_TIMEOUT_MIN))) ∧
    (((PeerHandleP.mk i ni mi (PeerState.NonVoting r st)).advance_non_voting_peer_round latest now).2
        = NonVotingPeerState.CaughtUp →
      ((PeerHandleP.mk i ni mi (PeerState.NonVoting r st)).advance_non_voting_peer_round latest now).1.state
        = PeerState.Voting) ∧
    (((PeerHandleP.mk i ni mi (PeerState.NonVoting r st)).advance_non_voting_peer_round latest now).2
        = NonVotingPeerState.TimedOut ↔
      (ni ≠ latest + 1 ∧ r + 1 = MAX_ROUNDS_FOR_NEW_SERVER ∧ ELECTION_TIMEOUT_MIN < now - st)) ∧
    (((PeerHandleP.mk i ni mi (PeerState.NonVoting r st)).advance_non_voting_peer_round latest now).2
        = NonVotingPeerState.CatchingUp ↔
      (ni ≠ latest + 1 ∧ r + 1 ≠ MAX_ROUNDS_FOR_NEW_SERVER)) ∧
    (((PeerHandleP.mk i ni mi (PeerState.NonVoting r st)).advance_non_voting_peer_round latest now).2
        = NonVotingPeerState.CatchingUp →
      ((PeerHandleP.mk i ni mi (PeerState.NonVoting r st)).advance_non_voting_peer_round latest now).1.state
        = PeerState.NonVoting (r + 1) now) := by
  simp only [PeerHandleP.advance_non_voting_peer_round]
  by_cases h1 : ni = latest + 1
  · simp [h1]
  · by_cases h2 : r + 1 = MAX_ROUNDS_FOR_NEW_SERVER
    · by_cases h3 : ELECTION_TIMEOUT_MIN < now - st
      · simp [h1, h2, h3]
        omega
      · simp [h1, h2, h3]
        omega
    · simp [h1, h2]

/-- C10: update_commit_index reads the sorted peer cursor list at position
(len - 1) / 2 and unwraps; the unwrap cannot panic exactly when the peer
vector is non-empty. With zero peers the usize subtraction len - 1
underflows: the release build wraps and Vec::get returns None, the debug
build panics on the subtraction, and either way the call panics, which the
model renders as none. -/
theorem update_commit_index_isSome_iff (s : Server) :
    (Server.update_commit_index s).isSome = true ↔ s.peers ≠ [] := by
  have hlen : (sortAsc (List.map PeerHandleM.commit_index s.peers)).length
      = s.peers.length := by rw [sortAsc_length, List.length_map]
  simp only [Server.update_commit_index]
  cases hget : List.get? (sortAsc (List.map PeerHandleM.commit_index s.peers))
      (((sortAsc (List.map PeerHandleM.commit_index s.peers)).length - 1) / 2) with
  | none =>
    have hle := List.get?_eq_none.mp hget
    have hzero : s.peers.length = 0 := by omega
    have : s.peers = [] := List.length_eq_zero.mp hzero
    simp [hget, this]
  | some x =>
    have hlt := (List.get?_eq_some.mp hget).1
    have hpos : 0 < s.peers.length := by omega
    have hne : s.peers ≠ [] := by
      intro hnil
      rw [hnil] at hpos
      simp at hpos
    simp only [hget]
    constructor
    · intro _; exact hne
    · intro _
      by_cases hc : x ≤ s.state.commit_index <;> simp [hc]

end RustyRaft
